import Mathlib

/-!
Shallow embedding of the geospatial demand/access evaluation engine of the
breast-cancer diagnostic-service location repository.

Source files embedded:
  * `src/analysis/travel.py`  — `haversine_np`, `compute_distance_time`
  * `src/analysis/demand.py`  — `nearest_metrics`
  * `src/app.py`              — baseline/improvement percentages and the
    per-hospital summary table (`hospital_summary`).

Modelling conventions:
  * A numpy 2-D array is a `List (List ℝ)` (rows).  A numpy 1-D array is a
    `List ℝ`.  The shape check `arr.ndim == 2 and arr.shape[1] == 2` becomes
    "every row has length 2" (an empty list of rows passes, exactly as a
    `(0, 2)` numpy array does).
  * Python exceptions become `Except PyError`; `PyError` distinguishes
    `TypeError` from `ValueError` as the source does.
  * The dynamic `isinstance(arr, np.ndarray)` check of `nearest_metrics`
    is modelled by `Option`-typed arguments: `none` stands for any Python
    value that is not a numpy ndarray, `some a` for an ndarray of content
    `a`.
  * `np.min(row)` / `np.argmin(row)` on an empty row are modelled by the
    junk values `0`; every theorem that touches them carries the
    corresponding non-emptiness hypothesis.
-/

open scoped Classical

noncomputable section

/-- Python exception kinds raised by the engine. -/
inductive PyError where
  | typeError (msg : String) : PyError
  | valueError (msg : String) : PyError
  deriving DecidableEq

/-- Embedding of `np.radians`: degrees to radians. -/
def radians (x : ℝ) : ℝ := x * (Real.pi / 180)

/-- Function `haversine_np` from `src/analysis/travel.py`: great-circle
distance in miles on a sphere of radius 3959 miles. -/
def haversine_np (lat1 lon1 lat2 lon2 : ℝ) : ℝ :=
  let lat1r := radians lat1
  let lon1r := radians lon1
  let lat2r := radians lat2
  let lon2r := radians lon2
  let dlon := lon2r - lon1r
  let dlat := lat2r - lat1r
  let a := Real.sin (dlat / 2) ^ 2 +
    Real.cos lat1r * Real.cos lat2r * Real.sin (dlon / 2) ^ 2
  let c := 2 * Real.arcsin (Real.sqrt a)
  3959.0 * c

/-- Entry `(i, j)` of a row-list matrix, with junk value `0` out of range. -/
def entry (m : List (List ℝ)) (i j : ℕ) : ℝ := (m.getD i []).getD j 0

/-- Column `j` of a row-list matrix (`m[:, j]` in numpy). -/
def column (m : List (List ℝ)) (j : ℕ) : List ℝ :=
  m.map (fun row => row.getD j 0)

/-- Function `compute_distance_time` from `src/analysis/travel.py`: validates the
coordinate shapes and the speeds, then builds the distance, car-time and
PT-time matrices by broadcasting. -/
def compute_distance_time (gp_coords hosp_coords : List (List ℝ))
    (car_speed_mph pt_speed_mph : ℝ) :
    Except PyError (List (List ℝ) × List (List ℝ) × List (List ℝ)) :=
  if ¬ (∀ r ∈ gp_coords, r.length = 2) then
    .error (.valueError "gp_coords must be (n_gps, 2) array")
  else if ¬ (∀ r ∈ hosp_coords, r.length = 2) then
    .error (.valueError "hosp_coords must be (n_hospitals, 2) array")
  else if car_speed_mph ≤ 0 ∨ pt_speed_mph ≤ 0 then
    .error (.valueError "Speeds must be positive")
  else
    let dist_miles := gp_coords.map (fun g =>
      hosp_coords.map (fun h =>
        haversine_np (g.getD 0 0) (g.getD 1 0) (h.getD 0 0) (h.getD 1 0)))
    let car_time_min := dist_miles.map (fun row =>
      row.map (fun d => d / car_speed_mph * 60))
    let pt_time_min := dist_miles.map (fun row =>
      row.map (fun d => d / pt_speed_mph * 60))
    .ok (dist_miles, car_time_min, pt_time_min)

/-- Row minimum `np.min(row)` over one matrix row (junk value `0` on an
empty row). -/
def rowMin : List ℝ → ℝ
  | [] => 0
  | x :: xs => xs.foldl min x

/-- Auxiliary loop for `argmin`: `best`/`bestIdx` is the current minimum and
its first index, `cur` the index of the head of the remaining list. -/
def argminAux (best : ℝ) (bestIdx cur : ℕ) : List ℝ → ℕ
  | [] => bestIdx
  | x :: xs =>
    if x < best then argminAux x cur (cur + 1) xs
    else argminAux best bestIdx (cur + 1) xs

/-- First index of the row minimum, `np.argmin(row)` (junk value `0` on an
empty row). -/
def argmin : List ℝ → ℕ
  | [] => 0
  | x :: xs => argminAux x 0 1 xs

/-- Result record of `nearest_metrics` (`src/analysis/demand.py`), one field
per component of the returned tuple. -/
structure NearestMetricsResult where
  nearest_dist : List ℝ
  nearest_car_time : List ℝ
  nearest_pt_time : List ℝ
  fuel_cost : List ℝ
  co2 : List ℝ
  weighted_car : List ℝ
  weighted_pt : List ℝ
  weighted_access_score : List ℝ

/-- Body of `nearest_metrics` (`src/analysis/demand.py`, after the
`isinstance` validation): row minima, fuel/CO₂ from the nearest car time,
and referral-weighted metrics. -/
def nearest_metrics_core (dist_miles car_time_min pt_time_min : List (List ℝ))
    (monthly_referrals : List ℝ)
    (car_speed_mph fuel_cost_per_mile co2_per_mile : ℝ) :
    NearestMetricsResult :=
  let nearest_dist := dist_miles.map rowMin
  let nearest_car_time := car_time_min.map rowMin
  let nearest_pt_time := pt_time_min.map rowMin
  let miles := nearest_car_time.map (fun t => t / 60 * car_speed_mph)
  let fuel_cost := miles.map (fun m => m * fuel_cost_per_mile)
  let co2 := miles.map (fun m => m * co2_per_mile)
  let weighted_car := List.zipWith (· * ·) monthly_referrals nearest_car_time
  let weighted_pt := List.zipWith (· * ·) monthly_referrals nearest_pt_time
  let weighted_access_score := List.zipWith (· + ·) weighted_car weighted_pt
  ⟨nearest_dist, nearest_car_time, nearest_pt_time, fuel_cost, co2,
    weighted_car, weighted_pt, weighted_access_score⟩

/-- Function `nearest_metrics` from `src/analysis/demand.py`, including the dynamic
type check: each argument is `some`(its content) when it is a numpy
ndarray and `none` when it is any other Python value, and the function
raises `TypeError` before computing anything unless all four are
ndarrays. -/
def nearest_metrics (dist_miles car_time_min pt_time_min :
    Option (List (List ℝ))) (monthly_referrals : Option (List ℝ))
    (car_speed_mph fuel_cost_per_mile co2_per_mile : ℝ) :
    Except PyError NearestMetricsResult :=
  match dist_miles, car_time_min, pt_time_min, monthly_referrals with
  | some d, some c, some p, some r =>
    .ok (nearest_metrics_core d c p r car_speed_mph fuel_cost_per_mile
      co2_per_mile)
  | _, _, _, _ => .error (.typeError "Inputs must be numpy arrays")

/-- Embedding of `nearest_hospital_index = np.argmin(car_time, axis=1)`
(`src/app.py` line 275). -/
def nearest_hospital_index (car_time : List (List ℝ)) : List ℕ :=
  car_time.map argmin

/-- Column "Total Referrals Assigned" for hospital `i`
(`src/app.py` lines 279-282): sum of referrals of the GPs whose
nearest-by-car-time hospital index is `i`. -/
def assigned_referrals (car_time : List (List ℝ)) (referrals : List ℝ)
    (i : ℕ) : ℝ :=
  ((((nearest_hospital_index car_time).zip referrals).filter
    (fun p => p.1 == i)).map Prod.snd).sum

/-- Column "Total Weighted Demand" for hospital `i`
(`src/app.py` lines 283-290): `np.sum(time[:, i] * referrals)` over all
GPs, not gated by assignment. -/
def total_weighted_demand (time_matrix : List (List ℝ)) (referrals : List ℝ)
    (i : ℕ) : ℝ :=
  (List.zipWith (· * ·) (column time_matrix i) referrals).sum

/-- One row of the hospital summary table (`src/app.py` lines 277-291);
the "Hospital" name column is presentation only and is omitted. -/
structure HospitalRow where
  assigned : ℝ
  weighted_car : ℝ
  weighted_pt : ℝ

/-- The hospital summary table of `src/app.py` (lines 275-291), one row per
hospital index `0, ..., n_hospitals - 1`. -/
def hospital_summary (car_time pt_time : List (List ℝ)) (referrals : List ℝ)
    (n_hospitals : ℕ) : List HospitalRow :=
  (List.range n_hospitals).map (fun i =>
    ⟨assigned_referrals car_time referrals i,
      total_weighted_demand car_time referrals i,
      total_weighted_demand pt_time referrals i⟩)

/-- Value `baseline_total_car` (`src/app.py` lines 234-244): referral-weighted
total car time to the first hospital in the supplied ordering. -/
def baseline_total_car (car_time : List (List ℝ)) (referrals : List ℝ) : ℝ :=
  (List.zipWith (· * ·) (column car_time 0) referrals).sum

/-- Value `baseline_total_pt` (`src/app.py` lines 235-245): referral-weighted
total PT time to the first hospital in the supplied ordering. -/
def baseline_total_pt (pt_time : List (List ℝ)) (referrals : List ℝ) : ℝ :=
  (List.zipWith (· * ·) (column pt_time 0) referrals).sum

/-- Improvement percentage for car mode (`src/app.py` lines 248-251). -/
def improvement_car_pct (car_time : List (List ℝ)) (referrals : List ℝ)
    (total_weighted_car : ℝ) : ℝ :=
  if baseline_total_car car_time referrals > 0 then
    (baseline_total_car car_time referrals - total_weighted_car) /
      baseline_total_car car_time referrals * 100
  else 0

/-- Improvement percentage for PT mode (`src/app.py` lines 253-256). -/
def improvement_pt_pct (pt_time : List (List ℝ)) (referrals : List ℝ)
    (total_weighted_pt : ℝ) : ℝ :=
  if baseline_total_pt pt_time referrals > 0 then
    (baseline_total_pt pt_time referrals - total_weighted_pt) /
      baseline_total_pt pt_time referrals * 100
  else 0

/-! ### Helper lemmas -/

theorem foldl_min_le_init (l : List ℝ) (a : ℝ) : l.foldl min a ≤ a := by
  induction l generalizing a with
  | nil => simp
  | cons x xs ih => exact le_trans (ih (min a x)) (min_le_left a x)

theorem foldl_min_le_mem (l : List ℝ) : ∀ (a x : ℝ), x ∈ l → l.foldl min a ≤ x := by
  induction l with
  | nil => intro a x hx; simp at hx
  | cons y ys ih =>
    intro a x hx
    rcases List.mem_cons.mp hx with h | h
    · subst h
      exact le_trans (foldl_min_le_init ys (min a x)) (min_le_right a x)
    · exact ih (min a y) x h

theorem foldl_min_mem_or (l : List ℝ) (a : ℝ) :
    l.foldl min a = a ∨ l.foldl min a ∈ l := by
  induction l generalizing a with
  | nil => simp
  | cons y ys ih =>
    rcases ih (min a y) with h | h
    · rcases min_cases a y with ⟨h2, _⟩ | ⟨h2, _⟩
      · left
        rw [List.foldl_cons, h, h2]
      · right
        rw [List.foldl_cons, h, h2]
        exact List.mem_cons_self y ys
    · right
      rw [List.foldl_cons]
      exact List.mem_cons_of_mem y h

theorem rowMin_le (l : List ℝ) (x : ℝ) (hx : x ∈ l) : rowMin l ≤ x := by
  match l with
  | y :: ys =>
    rcases List.mem_cons.mp hx with h | h
    · subst h; exact foldl_min_le_init ys x
    · exact foldl_min_le_mem ys y x h

theorem rowMin_mem (l : List ℝ) (hl : l ≠ []) : rowMin l ∈ l := by
  match l with
  | y :: ys =>
    rcases foldl_min_mem_or ys y with h | h
    · rw [rowMin, h]; exact List.mem_cons_self y ys
    · rw [rowMin]; exact List.mem_cons_of_mem y h

theorem foldl_min_map_comm (f : ℝ → ℝ)
    (hf : ∀ a b, f (min a b) = min (f a) (f b)) (l : List ℝ) (a : ℝ) :
    (l.map f).foldl min (f a) = f (l.foldl min a) := by
  induction l generalizing a with
  | nil => simp
  | cons y ys ih =>
    rw [List.map_cons, List.foldl_cons, List.foldl_cons, ← hf, ih]

theorem rowMin_map_comm (f : ℝ → ℝ)
    (hf : ∀ a b, f (min a b) = min (f a) (f b)) (l : List ℝ) (hl : l ≠ []) :
    rowMin (l.map f) = f (rowMin l) := by
  match l with
  | y :: ys => rw [List.map_cons, rowMin, rowMin, foldl_min_map_comm f hf]

theorem argminAux_lt (l : List ℝ) :
    ∀ (best : ℝ) (bestIdx cur : ℕ), bestIdx < cur →
      argminAux best bestIdx cur l < cur + l.length := by
  induction l with
  | nil => intro best bestIdx cur h; simpa [argminAux] using h
  | cons y ys ih =>
    intro best bestIdx cur h
    rw [argminAux]
    by_cases hy : y < best
    · rw [if_pos hy]
      have := ih y cur (cur + 1) (Nat.lt_succ_self cur)
      simpa [List.length_cons, Nat.add_assoc, Nat.add_comm 1 ys.length] using this
    · rw [if_neg hy]
      have := ih best bestIdx (cur + 1) (Nat.lt_succ_of_lt h)
      simpa [List.length_cons, Nat.add_assoc, Nat.add_comm 1 ys.length] using this

theorem argmin_lt_length (l : List ℝ) (hl : l ≠ []) : argmin l < l.length := by
  match l with
  | y :: ys =>
    rw [argmin]
    have := argminAux_lt ys y 0 1 Nat.zero_lt_one
    simpa [List.length_cons, Nat.add_comm 1 ys.length] using this

theorem getD_map_of_lt {α β : Type} (f : α → β) (l : List α) (i : ℕ)
    (h : i < l.length) (d : β) : (l.map f).getD i d = f (l.get ⟨i, h⟩) := by
  rw [List.getD_eq_getElem (l.map f) d (by simpa using h), List.getElem_map]
  rfl

theorem getD_zipWith_of_lt {α β γ : Type} (f : α → β → γ)
    (as : List α) (bs : List β) (i : ℕ) (ha : i < as.length)
    (hb : i < bs.length) (d : γ) :
    (List.zipWith f as bs).getD i d = f (as.get ⟨i, ha⟩) (bs.get ⟨i, hb⟩) := by
  rw [List.getD_eq_getElem _ d (by simp [List.length_zipWith]; omega),
    List.getElem_zipWith]
  rfl

theorem zipWith_sum_eq (f : ℝ → ℝ → ℝ) :
    ∀ (as bs : List ℝ), as.length = bs.length →
      (List.zipWith f as bs).sum =
        ∑ i in Finset.range as.length, f (as.getD i 0) (bs.getD i 0) := by
  intro as
  induction as with
  | nil => intro bs h; simp
  | cons a as ih =>
    intro bs h
    match bs with
    | b :: bs =>
      simp only [List.zipWith_cons_cons, List.sum_cons, List.length_cons]
      rw [Finset.sum_range_succ']
      simp only [List.getD_cons_succ, List.getD_cons_zero]
      rw [ih bs (by simpa using h)]
      ring

theorem filter_partition_sum (M : ℕ) :
    ∀ (pairs : List (ℕ × ℝ)), (∀ p ∈ pairs, p.1 < M) →
      ∑ i in Finset.range M,
        ((pairs.filter (fun p => p.1 == i)).map Prod.snd).sum =
      (pairs.map Prod.snd).sum := by
  intro pairs
  induction pairs with
  | nil => simp
  | cons q t ih =>
    intro hall
    have hq : q.1 < M := hall q (List.mem_cons_self q t)
    have ht : ∀ p ∈ t, p.1 < M := fun p hp => hall p (List.mem_cons_of_mem q hp)
    have step : ∀ i,
        ((List.filter (fun p => p.1 == i) (q :: t)).map Prod.snd).sum =
          (if q.1 = i then q.2 else 0) +
            ((t.filter (fun p => p.1 == i)).map Prod.snd).sum := by
      intro i
      by_cases h : q.1 = i
      · simp [List.filter_cons, h]
      · simp [List.filter_cons, h]
    simp only [step]
    rw [Finset.sum_add_distrib, ih ht, Finset.sum_ite_eq]
    simp [Finset.mem_range, hq]


theorem entry_map (f : ℝ → ℝ) (m : List (List ℝ)) (i j : ℕ)
    (hi : i < m.length) (hj : j < (m.getD i []).length) :
    entry (m.map (fun row => row.map f)) i j = f (entry m i j) := by
  have hget : m.getD i [] = m.get ⟨i, hi⟩ := List.getD_eq_getElem m [] hi
  have hj' : j < (m.get ⟨i, hi⟩).length := by rw [← hget]; exact hj
  rw [entry, getD_map_of_lt _ m i hi [], getD_map_of_lt f _ j hj' 0, entry,
    hget, List.getD_eq_getElem _ 0 hj']
  rfl

theorem twd_eq_sum (m : List (List ℝ)) (refs : List ℝ) (j : ℕ)
    (hlen : m.length = refs.length) :
    total_weighted_demand m refs j =
      ∑ g in Finset.range refs.length, entry m g j * refs.getD g 0 := by
  rw [total_weighted_demand,
    zipWith_sum_eq (· * ·) (column m j) refs (by simp [column, hlen])]
  have hl : (column m j).length = refs.length := by simp [column, hlen]
  rw [hl]
  refine Finset.sum_congr rfl ?_
  intro g hg
  have hgr : g < refs.length := Finset.mem_range.mp hg
  have hgm : g < m.length := by omega
  rw [column, getD_map_of_lt _ m g hgm 0, entry,
    List.getD_eq_getElem m [] hgm]
  rfl

/-! ### Claim theorems -/

/-- C1: for every pair `(i, j)` of a demand point and a site, under the
validation preconditions `compute_distance_time` succeeds and the distance
matrix entry equals the haversine great-circle distance (sphere radius
3959 miles) between demand point `i` and site `j` — it depends only on
those two coordinate rows — while the car-time and PT-time entries equal
that distance divided by the respective speed, times 60. -/
theorem c1_haversine_entries (gp_coords hosp_coords : List (List ℝ))
    (car_speed_mph pt_speed_mph : ℝ)
    (hg : ∀ r ∈ gp_coords, r.length = 2)
    (hh : ∀ r ∈ hosp_coords, r.length = 2)
    (hcs : 0 < car_speed_mph) (hps : 0 < pt_speed_mph)
    (i j : ℕ) (hi : i < gp_coords.length) (hj : j < hosp_coords.length) :
    ∃ d c p, compute_distance_time gp_coords hosp_coords car_speed_mph
        pt_speed_mph = .ok (d, c, p) ∧
      entry d i j = haversine_np ((gp_coords.get ⟨i, hi⟩).getD 0 0)
        ((gp_coords.get ⟨i, hi⟩).getD 1 0)
        ((hosp_coords.get ⟨j, hj⟩).getD 0 0)
        ((hosp_coords.get ⟨j, hj⟩).getD 1 0) ∧
      entry c i j = entry d i j / car_speed_mph * 60 ∧
      entry p i j = entry d i j / pt_speed_mph * 60 := by
  have hsp : ¬(car_speed_mph ≤ 0 ∨ pt_speed_mph ≤ 0) := by
    push_neg
    exact ⟨hcs, hps⟩
  set D := gp_coords.map (fun g => hosp_coords.map (fun h =>
    haversine_np (g.getD 0 0) (g.getD 1 0) (h.getD 0 0) (h.getD 1 0)))
    with hD
  have hok : compute_distance_time gp_coords hosp_coords car_speed_mph
      pt_speed_mph = .ok (D,
        D.map (fun row => row.map (fun x => x / car_speed_mph * 60)),
        D.map (fun row => row.map (fun x => x / pt_speed_mph * 60))) := by
    rw [compute_distance_time, if_neg (not_not_intro hg),
      if_neg (not_not_intro hh), if_neg hsp]
  have hDgetD : D.getD i [] = hosp_coords.map (fun h =>
      haversine_np ((gp_coords.get ⟨i, hi⟩).getD 0 0)
        ((gp_coords.get ⟨i, hi⟩).getD 1 0) (h.getD 0 0) (h.getD 1 0)) := by
    rw [hD, getD_map_of_lt _ gp_coords i hi []]
  have hDij : entry D i j = haversine_np ((gp_coords.get ⟨i, hi⟩).getD 0 0)
      ((gp_coords.get ⟨i, hi⟩).getD 1 0) ((hosp_coords.get ⟨j, hj⟩).getD 0 0)
      ((hosp_coords.get ⟨j, hj⟩).getD 1 0) := by
    rw [entry, hDgetD, getD_map_of_lt _ hosp_coords j hj 0]
  have hiD : i < D.length := by simpa [hD] using hi
  have hjD : j < (D.getD i []).length := by
    rw [hDgetD]
    simpa using hj
  exact ⟨D, D.map (fun row => row.map (fun x => x / car_speed_mph * 60)),
    D.map (fun row => row.map (fun x => x / pt_speed_mph * 60)), hok, hDij,
    entry_map (fun x => x / car_speed_mph * 60) D i j hiD hjD,
    entry_map (fun x => x / pt_speed_mph * 60) D i j hiD hjD⟩

/-- Witness for C1 at one concrete demand point and one concrete site. -/
theorem c1_witness :
    ∃ d c p, compute_distance_time [[51.5, -0.1]] [[51.51, -0.11]] 40 25 =
      .ok (d, c, p) := by
  obtain ⟨d, c, p, hok, -, -, -⟩ := c1_haversine_entries [[51.5, -0.1]]
    [[51.51, -0.11]] 40 25 (by decide) (by decide) (by norm_num)
    (by norm_num) 0 0 (by decide) (by decide)
  exact ⟨d, c, p, hok⟩

/-- C2: for every demand point `i`, the nearest distance, nearest car time
and nearest PT time computed by `nearest_metrics` are each the row-minimum
of their own matrix: each is a lower bound of its row and is attained by
some entry of that row. -/
theorem c2_row_minimum (dist_miles car_time_min pt_time_min : List (List ℝ))
    (monthly_referrals : List ℝ) (cs fr cr : ℝ) (i : ℕ)
    (hdi : i < dist_miles.length) (hci : i < car_time_min.length)
    (hpi : i < pt_time_min.length)
    (hd : dist_miles.get ⟨i, hdi⟩ ≠ [])
    (hc : car_time_min.get ⟨i, hci⟩ ≠ [])
    (hp : pt_time_min.get ⟨i, hpi⟩ ≠ []) :
    ((∀ x ∈ dist_miles.get ⟨i, hdi⟩, (nearest_metrics_core dist_miles
        car_time_min pt_time_min monthly_referrals cs fr
        cr).nearest_dist.getD i 0 ≤ x) ∧
      (nearest_metrics_core dist_miles car_time_min pt_time_min
        monthly_referrals cs fr cr).nearest_dist.getD i 0 ∈
          dist_miles.get ⟨i, hdi⟩) ∧
    ((∀ x ∈ car_time_min.get ⟨i, hci⟩, (nearest_metrics_core dist_miles
        car_time_min pt_time_min monthly_referrals cs fr
        cr).nearest_car_time.getD i 0 ≤ x) ∧
      (nearest_metrics_core dist_miles car_time_min pt_time_min
        monthly_referrals cs fr cr).nearest_car_time.getD i 0 ∈
          car_time_min.get ⟨i, hci⟩) ∧
    ((∀ x ∈ pt_time_min.get ⟨i, hpi⟩, (nearest_metrics_core dist_miles
        car_time_min pt_time_min monthly_referrals cs fr
        cr).nearest_pt_time.getD i 0 ≤ x) ∧
      (nearest_metrics_core dist_miles car_time_min pt_time_min
        monthly_referrals cs fr cr).nearest_pt_time.getD i 0 ∈
          pt_time_min.get ⟨i, hpi⟩) := by
  have e1 : (nearest_metrics_core dist_miles car_time_min pt_time_min
      monthly_referrals cs fr cr).nearest_dist = dist_miles.map rowMin := rfl
  have e2 : (nearest_metrics_core dist_miles car_time_min pt_time_min
      monthly_referrals cs fr cr).nearest_car_time =
        car_time_min.map rowMin := rfl
  have e3 : (nearest_metrics_core dist_miles car_time_min pt_time_min
      monthly_referrals cs fr cr).nearest_pt_time =
        pt_time_min.map rowMin := rfl
  refine ⟨⟨?_, ?_⟩, ⟨?_, ?_⟩, ⟨?_, ?_⟩⟩
  · intro x hx
    rw [e1, getD_map_of_lt rowMin dist_miles i hdi 0]
    exact rowMin_le _ x hx
  · rw [e1, getD_map_of_lt rowMin dist_miles i hdi 0]
    exact rowMin_mem _ hd
  · intro x hx
    rw [e2, getD_map_of_lt rowMin car_time_min i hci 0]
    exact rowMin_le _ x hx
  · rw [e2, getD_map_of_lt rowMin car_time_min i hci 0]
    exact rowMin_mem _ hc
  · intro x hx
    rw [e3, getD_map_of_lt rowMin pt_time_min i hpi 0]
    exact rowMin_le _ x hx
  · rw [e3, getD_map_of_lt rowMin pt_time_min i hpi 0]
    exact rowMin_mem _ hp

/-- Witness for C2 on a concrete 1×2 scenario. -/
theorem c2_witness :
    ((nearest_metrics_core [[3, 1]] [[6, 2]] [[9, 3]] [5] 40 0.2
        0.25).nearest_dist.getD 0 0 ∈ [(3:ℝ), 1]) ∧
    ((nearest_metrics_core [[3, 1]] [[6, 2]] [[9, 3]] [5] 40 0.2
        0.25).nearest_car_time.getD 0 0 ∈ [(6:ℝ), 2]) := by
  have h := c2_row_minimum [[3, 1]] [[6, 2]] [[9, 3]] [5] 40 0.2 0.25 0
    (by decide) (by decide) (by decide) (by simp) (by simp) (by simp)
  exact ⟨h.1.2, h.2.1.2⟩

/-- C3: with a non-empty site set, every demand point is assigned by
argmin of car time to exactly one in-range site index, and the sum over
sites of assigned referrals equals the sum over demand points of their
referrals (partition invariant). -/
theorem c3_partition (car_time pt_time : List (List ℝ)) (referrals : List ℝ)
    (n_hospitals : ℕ) (hM : 0 < n_hospitals)
    (hlen : car_time.length = referrals.length)
    (hrows : ∀ row ∈ car_time, row.length = n_hospitals) :
    ((hospital_summary car_time pt_time referrals n_hospitals).map
        HospitalRow.assigned).sum = referrals.sum ∧
    ∀ idx ∈ nearest_hospital_index car_time, idx < n_hospitals := by
  have hidx : ∀ idx ∈ nearest_hospital_index car_time, idx < n_hospitals := by
    intro idx hidx
    obtain ⟨row, hrow, rfl⟩ := List.mem_map.mp hidx
    have hrl : row.length = n_hospitals := hrows row hrow
    have hne : row ≠ [] := by
      intro h
      rw [h] at hrl
      simp at hrl
      omega
    have := argmin_lt_length row hne
    omega
  refine ⟨?_, hidx⟩
  have emap : (hospital_summary car_time pt_time referrals n_hospitals).map
      HospitalRow.assigned =
        (List.range n_hospitals).map
          (fun i => assigned_referrals car_time referrals i) := by
    rw [hospital_summary, List.map_map]
    rfl
  rw [emap]
  have esum : ((List.range n_hospitals).map
      (fun i => assigned_referrals car_time referrals i)).sum =
        ∑ i in Finset.range n_hospitals,
          assigned_referrals car_time referrals i := rfl
  rw [esum]
  have hall : ∀ p ∈ (nearest_hospital_index car_time).zip referrals,
      p.1 < n_hospitals := by
    intro p hp
    exact hidx p.1 (List.of_mem_zip hp).1
  have := filter_partition_sum n_hospitals
    ((nearest_hospital_index car_time).zip referrals) hall
  simp only [assigned_referrals]
  rw [this]
  have hlen2 : referrals.length ≤ (nearest_hospital_index car_time).length := by
    simp [nearest_hospital_index]
    omega
  rw [List.map_snd_zip _ _ hlen2]

/-- Witness for C3 on a concrete scenario with one GP and two hospitals. -/
theorem c3_witness :
    ((hospital_summary [[6, 2]] [[9, 3]] [(5:ℝ)] 2).map
        HospitalRow.assigned).sum = [(5:ℝ)].sum :=
  (c3_partition [[6, 2]] [[9, 3]] [(5:ℝ)] 2 (by decide) (by decide)
    (by decide)).1

/-- C4: the "Total Weighted Demand" columns of the hospital summary are
full catchment-load sums over all demand points (time to that site times
referrals), not gated by the nearest-site assignment. -/
theorem c4_full_catchment (car_time pt_time : List (List ℝ))
    (referrals : List ℝ) (n_hospitals j : ℕ) (hj : j < n_hospitals)
    (hcar : car_time.length = referrals.length)
    (hpt : pt_time.length = referrals.length) :
    ((hospital_summary car_time pt_time referrals n_hospitals).getD j
        ⟨0, 0, 0⟩).weighted_car =
      ∑ g in Finset.range referrals.length,
        entry car_time g j * referrals.getD g 0 ∧
    ((hospital_summary car_time pt_time referrals n_hospitals).getD j
        ⟨0, 0, 0⟩).weighted_pt =
      ∑ g in Finset.range referrals.length,
        entry pt_time g j * referrals.getD g 0 := by
  have hsz : j < (List.range n_hospitals).length := by simpa using hj
  rw [hospital_summary, getD_map_of_lt _ (List.range n_hospitals) j hsz _]
  have hjv : (List.range n_hospitals).get ⟨j, hsz⟩ = j := by simp
  rw [hjv]
  exact ⟨twd_eq_sum car_time referrals j hcar,
    twd_eq_sum pt_time referrals j hpt⟩

/-- Witness for C4 on a concrete scenario with one GP and two hospitals. -/
theorem c4_witness :
    ((hospital_summary [[6, 2]] [[9, 3]] [(5:ℝ)] 2).getD 0
        ⟨0, 0, 0⟩).weighted_car =
      ∑ g in Finset.range 1, entry [[6, 2]] g 0 * [(5:ℝ)].getD g 0 :=
  (c4_full_catchment [[6, 2]] [[9, 3]] [(5:ℝ)] 2 0 (by decide) (by decide)
    (by decide)).1

/-- C5: the improvement percentage equals
`(baseline - scenario) / baseline * 100` whenever the baseline total is
strictly positive, and equals exactly `0` when the baseline total is `0`,
separately for the car and PT modes. -/
theorem c5_improvement (car_time pt_time : List (List ℝ)) (referrals : List ℝ)
    (total_weighted_car total_weighted_pt : ℝ) :
    (0 < baseline_total_car car_time referrals →
      improvement_car_pct car_time referrals total_weighted_car =
        (baseline_total_car car_time referrals - total_weighted_car) /
          baseline_total_car car_time referrals * 100) ∧
    (baseline_total_car car_time referrals = 0 →
      improvement_car_pct car_time referrals total_weighted_car = 0) ∧
    (0 < baseline_total_pt pt_time referrals →
      improvement_pt_pct pt_time referrals total_weighted_pt =
        (baseline_total_pt pt_time referrals - total_weighted_pt) /
          baseline_total_pt pt_time referrals * 100) ∧
    (baseline_total_pt pt_time referrals = 0 →
      improvement_pt_pct pt_time referrals total_weighted_pt = 0) := by
  refine ⟨fun h => ?_, fun h => ?_, fun h => ?_, fun h => ?_⟩
  · rw [improvement_car_pct, if_pos h]
  · rw [improvement_car_pct, if_neg (by rw [h]; exact lt_irrefl 0)]
  · rw [improvement_pt_pct, if_pos h]
  · rw [improvement_pt_pct, if_neg (by rw [h]; exact lt_irrefl 0)]

/-- Witness for C5: a positive baseline (car) and a zero baseline (PT). -/
theorem c5_witness :
    improvement_car_pct [[10]] [(2:ℝ)] 5 = (20 - 5) / 20 * 100 ∧
    improvement_pt_pct [[10]] [(0:ℝ)] 5 = 0 := by
  constructor
  · have hb : baseline_total_car [[10]] [(2:ℝ)] = 20 := by
      norm_num [baseline_total_car, column]
    have h := (c5_improvement [[10]] [[10]] [(2:ℝ)] 5 5).1
      (by rw [hb]; norm_num)
    rw [hb] at h
    exact h
  · have hb : baseline_total_pt [[10]] [(0:ℝ)] = 0 := by
      norm_num [baseline_total_pt, column]
    exact (c5_improvement [[10]] [[10]] [(0:ℝ)] 5 5).2.2.2 hb

/-- C6: for every demand point `i`, `weighted_car[i]` equals
`referrals[i] * nearest_car_time[i]`, `weighted_pt[i]` equals
`referrals[i] * nearest_pt_time[i]`, and the composite access score is
exactly their sum, with no normalization across demand points. -/
theorem c6_weighted_metrics (dist_miles car_time_min pt_time_min :
    List (List ℝ)) (monthly_referrals : List ℝ) (cs fr cr : ℝ) (i : ℕ)
    (hri : i < monthly_referrals.length) (hci : i < car_time_min.length)
    (hpi : i < pt_time_min.length) :
    (nearest_metrics_core dist_miles car_time_min pt_time_min
        monthly_referrals cs fr cr).weighted_car.getD i 0 =
      monthly_referrals.getD i 0 * (nearest_metrics_core dist_miles
        car_time_min pt_time_min monthly_referrals cs fr
        cr).nearest_car_time.getD i 0 ∧
    (nearest_metrics_core dist_miles car_time_min pt_time_min
        monthly_referrals cs fr cr).weighted_pt.getD i 0 =
      monthly_referrals.getD i 0 * (nearest_metrics_core dist_miles
        car_time_min pt_time_min monthly_referrals cs fr
        cr).nearest_pt_time.getD i 0 ∧
    (nearest_metrics_core dist_miles car_time_min pt_time_min
        monthly_referrals cs fr cr).weighted_access_score.getD i 0 =
      (nearest_metrics_core dist_miles car_time_min pt_time_min
        monthly_referrals cs fr cr).weighted_car.getD i 0 +
      (nearest_metrics_core dist_miles car_time_min pt_time_min
        monthly_referrals cs fr cr).weighted_pt.getD i 0 := by
  set res := nearest_metrics_core dist_miles car_time_min pt_time_min
    monthly_referrals cs fr cr with hres
  have hcl : i < (car_time_min.map rowMin).length := by simpa using hci
  have hpl : i < (pt_time_min.map rowMin).length := by simpa using hpi
  have ewc : res.weighted_car =
      List.zipWith (· * ·) monthly_referrals (car_time_min.map rowMin) := rfl
  have ewp : res.weighted_pt =
      List.zipWith (· * ·) monthly_referrals (pt_time_min.map rowMin) := rfl
  have enc : res.nearest_car_time = car_time_min.map rowMin := rfl
  have enp : res.nearest_pt_time = pt_time_min.map rowMin := rfl
  have ews : res.weighted_access_score =
      List.zipWith (· + ·) res.weighted_car res.weighted_pt := rfl
  have hwc : i < res.weighted_car.length := by
    rw [ewc, List.length_zipWith]
    omega
  have hwp : i < res.weighted_pt.length := by
    rw [ewp, List.length_zipWith]
    omega
  refine ⟨?_, ?_, ?_⟩
  · rw [ewc, enc, getD_zipWith_of_lt (· * ·) monthly_referrals
      (car_time_min.map rowMin) i hri hcl 0,
      List.getD_eq_getElem monthly_referrals 0 hri,
      List.getD_eq_getElem _ 0 hcl]
    rfl
  · rw [ewp, enp, getD_zipWith_of_lt (· * ·) monthly_referrals
      (pt_time_min.map rowMin) i hri hpl 0,
      List.getD_eq_getElem monthly_referrals 0 hri,
      List.getD_eq_getElem _ 0 hpl]
    rfl
  · rw [ews, getD_zipWith_of_lt (· + ·) res.weighted_car res.weighted_pt i
      hwc hwp 0,
      List.getD_eq_getElem _ 0 hwc, List.getD_eq_getElem _ 0 hwp]
    rfl

/-- Witness for C6 on a concrete 1×2 scenario. -/
theorem c6_witness :
    (nearest_metrics_core [[3, 1]] [[6, 2]] [[9, 3]] [5] 40 0.2
        0.25).weighted_car.getD 0 0 =
      ([(5:ℝ)].getD 0 0) *
        (nearest_metrics_core [[3, 1]] [[6, 2]] [[9, 3]] [5] 40 0.2
          0.25).nearest_car_time.getD 0 0 :=
  (c6_weighted_metrics [[3, 1]] [[6, 2]] [[9, 3]] [5] 40 0.2 0.25 0
    (by decide) (by decide) (by decide)).1

/-- C7: when the car-time matrix is the distance matrix rescaled entrywise
by the positive scalar `car_speed` (`time = distance / speed * 60`), the
row-minimum commutes with the monotone rescaling:
`nearest_car_time[i] = nearest_distance[i] / car_speed * 60` exactly. -/
theorem c7_monotone_rescaling (dist_miles pt_time_min : List (List ℝ))
    (monthly_referrals : List ℝ) (car_speed_mph fr cr : ℝ)
    (hcs : 0 < car_speed_mph) (i : ℕ) (hdi : i < dist_miles.length)
    (hrow : dist_miles.get ⟨i, hdi⟩ ≠ []) :
    (nearest_metrics_core dist_miles
        (dist_miles.map (fun row => row.map (fun d => d / car_speed_mph * 60)))
        pt_time_min monthly_referrals car_speed_mph fr
        cr).nearest_car_time.getD i 0 =
      (nearest_metrics_core dist_miles
        (dist_miles.map (fun row => row.map (fun d => d / car_speed_mph * 60)))
        pt_time_min monthly_referrals car_speed_mph fr
        cr).nearest_dist.getD i 0 / car_speed_mph * 60 := by
  have hmono : Monotone (fun d : ℝ => d / car_speed_mph * 60) := by
    intro a b hab
    dsimp only
    gcongr
  have hmin : ∀ a b : ℝ, (fun d : ℝ => d / car_speed_mph * 60) (min a b) =
      min ((fun d : ℝ => d / car_speed_mph * 60) a)
        ((fun d : ℝ => d / car_speed_mph * 60) b) :=
    fun a b => hmono.map_min
  have e1 : (nearest_metrics_core dist_miles
      (dist_miles.map (fun row => row.map (fun d => d / car_speed_mph * 60)))
      pt_time_min monthly_referrals car_speed_mph fr cr).nearest_car_time =
        (dist_miles.map
          (fun row => row.map (fun d => d / car_speed_mph * 60))).map
            rowMin := rfl
  have e2 : (nearest_metrics_core dist_miles
      (dist_miles.map (fun row => row.map (fun d => d / car_speed_mph * 60)))
      pt_time_min monthly_referrals car_speed_mph fr cr).nearest_dist =
        dist_miles.map rowMin := rfl
  rw [e1, e2, List.map_map, getD_map_of_lt _ dist_miles i hdi 0,
    getD_map_of_lt rowMin dist_miles i hdi 0]
  exact rowMin_map_comm (fun d : ℝ => d / car_speed_mph * 60) hmin
    (dist_miles.get ⟨i, hdi⟩) hrow

/-- Witness for C7 on a concrete 1×2 distance matrix. -/
theorem c7_witness :
    (nearest_metrics_core [[3, 1]]
        ([[3, 1]].map (fun row => row.map (fun d => d / 40 * 60)))
        [[9, 3]] [5] 40 0.2 0.25).nearest_car_time.getD 0 0 =
      (nearest_metrics_core [[3, 1]]
        ([[3, 1]].map (fun row => row.map (fun d => d / 40 * 60)))
        [[9, 3]] [5] 40 0.2 0.25).nearest_dist.getD 0 0 / 40 * 60 :=
  c7_monotone_rescaling [[3, 1]] [[9, 3]] [5] 40 0.2 0.25 (by norm_num) 0
    (by decide) (by simp)

/-- C8: fuel cost and CO₂ derive only from the nearest car time:
`fuel_cost[i] = (nearest_car_time[i] / 60 * car_speed) * fuel_rate` and
`co2[i] = (nearest_car_time[i] / 60 * car_speed) * co2_rate`; setting the
fuel rate to `0` forces every fuel cost to `0`. -/
theorem c8_fuel_co2 (dist_miles car_time_min pt_time_min : List (List ℝ))
    (monthly_referrals : List ℝ) (car_speed_mph fuel_cost_per_mile
    co2_per_mile : ℝ) (i : ℕ) (hci : i < car_time_min.length) :
    (nearest_metrics_core dist_miles car_time_min pt_time_min
        monthly_referrals car_speed_mph fuel_cost_per_mile
        co2_per_mile).fuel_cost.getD i 0 =
      ((nearest_metrics_core dist_miles car_time_min pt_time_min
        monthly_referrals car_speed_mph fuel_cost_per_mile
        co2_per_mile).nearest_car_time.getD i 0 / 60 * car_speed_mph) *
          fuel_cost_per_mile ∧
    (nearest_metrics_core dist_miles car_time_min pt_time_min
        monthly_referrals car_speed_mph fuel_cost_per_mile
        co2_per_mile).co2.getD i 0 =
      ((nearest_metrics_core dist_miles car_time_min pt_time_min
        monthly_referrals car_speed_mph fuel_cost_per_mile
        co2_per_mile).nearest_car_time.getD i 0 / 60 * car_speed_mph) *
          co2_per_mile ∧
    (fuel_cost_per_mile = 0 → ∀ x ∈ (nearest_metrics_core dist_miles
      car_time_min pt_time_min monthly_referrals car_speed_mph
      fuel_cost_per_mile co2_per_mile).fuel_cost, x = 0) := by
  set res := nearest_metrics_core dist_miles car_time_min pt_time_min
    monthly_referrals car_speed_mph fuel_cost_per_mile co2_per_mile
    with hres
  have hm1 : i < (car_time_min.map rowMin).length := by simpa using hci
  have hm2 : i < ((car_time_min.map rowMin).map
      (fun t => t / 60 * car_speed_mph)).length := by simpa using hci
  have efc : res.fuel_cost = ((car_time_min.map rowMin).map
      (fun t => t / 60 * car_speed_mph)).map
        (fun m => m * fuel_cost_per_mile) := rfl
  have eco : res.co2 = ((car_time_min.map rowMin).map
      (fun t => t / 60 * car_speed_mph)).map (fun m => m * co2_per_mile) := rfl
  have enc : res.nearest_car_time = car_time_min.map rowMin := rfl
  refine ⟨?_, ?_, ?_⟩
  · rw [efc, enc, getD_map_of_lt _ _ i hm2 0, List.getD_eq_getElem _ 0 hm1]
    simp
  · rw [eco, enc, getD_map_of_lt _ _ i hm2 0, List.getD_eq_getElem _ 0 hm1]
    simp
  · intro hfr x hx
    rw [efc] at hx
    obtain ⟨m, _, rfl⟩ := List.mem_map.mp hx
    rw [hfr, mul_zero]

/-- Witness for C8 with fuel rate `0` on a concrete scenario. -/
theorem c8_witness :
    (nearest_metrics_core [[3, 1]] [[6, 2]] [[9, 3]] [5] 40 0
        0.25).fuel_cost.getD 0 0 =
      ((nearest_metrics_core [[3, 1]] [[6, 2]] [[9, 3]] [5] 40 0
        0.25).nearest_car_time.getD 0 0 / 60 * 40) * 0 :=
  (c8_fuel_co2 [[3, 1]] [[6, 2]] [[9, 3]] [5] 40 0 0.25 0 (by decide)).1

/-- C9 counterexample: calling `compute_distance_time` with empty demand
and site sets does not fail fast — the validation passes and the function
returns empty matrices, refuting the claim that empty inputs raise an
`InvalidInput` error before computation. -/
theorem c9_counterexample :
    compute_distance_time [] [] 40 25 = .ok ([], [], []) := by
  have h1 : ¬¬(∀ r ∈ ([] : List (List ℝ)), r.length = 2) :=
    not_not_intro (by simp)
  have h3 : ¬((40:ℝ) ≤ 0 ∨ (25:ℝ) ≤ 0) := by norm_num
  rw [compute_distance_time, if_neg h1, if_neg h1, if_neg h3]
  simp

/-- C9 (amended): an empty demand-point set or an empty site set passes
the fail-fast validation of `compute_distance_time` (an empty coordinate
array with two columns satisfies the shape check) and the function
succeeds with empty matrices; only malformed row shapes or non-positive
speeds are rejected before computation. -/
theorem c9_amended (gp_coords hosp_coords : List (List ℝ))
    (car_speed_mph pt_speed_mph : ℝ)
    (hg : ∀ r ∈ gp_coords, r.length = 2)
    (hh : ∀ r ∈ hosp_coords, r.length = 2)
    (hcs : 0 < car_speed_mph) (hps : 0 < pt_speed_mph) :
    compute_distance_time [] hosp_coords car_speed_mph pt_speed_mph =
      .ok ([], [], []) ∧
    compute_distance_time gp_coords [] car_speed_mph pt_speed_mph =
      .ok (gp_coords.map (fun _ => []), gp_coords.map (fun _ => []),
        gp_coords.map (fun _ => [])) := by
  have hnil : ¬¬(∀ r ∈ ([] : List (List ℝ)), r.length = 2) :=
    not_not_intro (by simp)
  have hsp : ¬(car_speed_mph ≤ 0 ∨ pt_speed_mph ≤ 0) := by
    push_neg
    exact ⟨hcs, hps⟩
  constructor
  · rw [compute_distance_time, if_neg hnil, if_neg (not_not_intro hh),
      if_neg hsp]
    simp
  · rw [compute_distance_time, if_neg (not_not_intro hg), if_neg hnil,
      if_neg hsp]
    simp

/-- Witness for the amended C9 at a concrete non-empty site list. -/
theorem c9_amended_witness :
    compute_distance_time [] [[51.51, -0.11]] 40 25 = .ok ([], [], []) :=
  (c9_amended [[51.5, -0.1]] [[51.51, -0.11]] 40 25 (by decide) (by decide)
    (by norm_num) (by norm_num)).1

/-- C10: `nearest_metrics` raises `TypeError` before computing any metric
whenever any of its four array arguments is not a numpy ndarray
(modelled as `none`). -/
theorem c10_type_check (dist_miles car_time_min pt_time_min :
    Option (List (List ℝ))) (monthly_referrals : Option (List ℝ))
    (cs fr cr : ℝ)
    (h : dist_miles = none ∨ car_time_min = none ∨ pt_time_min = none ∨
      monthly_referrals = none) :
    nearest_metrics dist_miles car_time_min pt_time_min monthly_referrals
      cs fr cr = .error (.typeError "Inputs must be numpy arrays") := by
  cases dist_miles <;> cases car_time_min <;> cases pt_time_min <;>
    cases monthly_referrals <;> simp_all [nearest_metrics]

/-- Witness for C10 with a non-ndarray first argument. -/
theorem c10_witness :
    nearest_metrics none (some [[1]]) (some [[1]]) (some [1]) 40 0.2 0.25 =
      .error (.typeError "Inputs must be numpy arrays") :=
  c10_type_check none (some [[1]]) (some [[1]]) (some [1]) 40 0.2 0.25
    (Or.inl rfl)

end
